import Mathlib

/-!
Shallow embedding of `src/leptjson.go` (package `leptjson`), a JSON parser.

Modelling conventions:
* Go strings are byte strings; we model them as `List Nat` (each entry a byte
  value 0..255).  All concrete inputs used below are ASCII, where Go's byte
  view and the character view coincide.
* A Go `panic` (the `expect` helper, or an out-of-range index such as
  `input[0]` on an empty string) is modelled as `Option.none`; every function
  that can reach a panic returns an `Option`.
* Go `float64` arithmetic inside `strtod` is modelled exactly over `ℚ`.
  Every theorem below that inspects a numeric result only depends on control
  flow (error flags and cursor positions), never on rounding, so the exact
  model is faithful for those statements.
* Go's `int` is 64 bit on the supported targets; `strconv.Atoi` fails with a
  range error outside `-2^63 .. 2^63-1`.  `parseInteger` only ever passes a
  sign-free digit string to `Atoi`, so the model checks `val ≤ 2^63 - 1`.
* The `frac *= 10` loop in `strtod` is modelled as an exact power of ten; the
  claims under study never involve enough fraction digits for 64-bit wrap to
  matter.
-/

/-- Byte strings: the Go `string` type viewed as its bytes. -/
abbrev Bytes := List Nat

/-- Bytes of an ASCII string literal (each char below 0x80, so the code-point
list equals the UTF-8 byte list). -/
def bytes (s : String) : Bytes := s.data.map Char.toNat

/-- `LeptParseOK` -/
def LeptParseOK : Nat := 0
/-- `LeptParseExpectValue` -/
def LeptParseExpectValue : Nat := 1
/-- `LeptParseInvalidValue` -/
def LeptParseInvalidValue : Nat := 2
/-- `LeptParseRootNotSingular` -/
def LeptParseRootNotSingular : Nat := 3
/-- `LeptParseNumberTooBig` -/
def LeptParseNumberTooBig : Nat := 4
/-- `LeptParseMissQuotationMark` -/
def LeptParseMissQuotationMark : Nat := 5
/-- `LeptParseInvalidStringEscape` -/
def LeptParseInvalidStringEscape : Nat := 6
/-- `LeptParseInvalidStringChar` -/
def LeptParseInvalidStringChar : Nat := 7

/-- `LeptType`: enums of json type. -/
inductive LeptType where
  | LeptNULL
  | LeptFALSE
  | LeptTRUE
  | LeptNUMBER
  | LeptSTRING
  | LeptARRAY
  | LeptOBJECT
deriving DecidableEq, Repr

/-- `LeptValue` holds the value: the type tag, the number payload `n`
(float64, modelled exactly over ℚ) and the string payload `s`. -/
structure LeptValue where
  typ : LeptType
  n : ℚ
  s : Bytes
deriving DecidableEq, Repr

/-- `NewLeptValue` returns an initialized LeptValue (tag `LeptFALSE`,
zero-valued payloads). -/
def NewLeptValue : LeptValue := ⟨LeptType.LeptFALSE, 0, []⟩

/-- `expect(c, ch)`: panics (`none`) when the input is exhausted or the first
byte differs from `ch`; otherwise consumes that byte. -/
def expect (json : Bytes) (ch : Nat) : Option Bytes :=
  match json with
  | [] => none
  | first :: rest => if first = ch then some rest else none

/-- The whitespace test of `LeptParseWhitespace`: space, tab, newline,
carriage return. -/
def isWs (c : Nat) : Bool := c = 32 || c = 9 || c = 10 || c = 13

/-- `LeptParseWhitespace`: drop the maximal leading run of whitespace. -/
def LeptParseWhitespace (json : Bytes) : Bytes := json.dropWhile isWs

/-- `isDigit` -/
def isDigit (char : Nat) : Bool := decide (48 ≤ char ∧ char ≤ 57)

/-- Model of `strconv.Atoi` restricted to the arguments `parseInteger` passes
it: a (possibly empty) all-digit slice.  Fails on an empty slice and on
values beyond Go's 64-bit `int` range. -/
def atoi (ds : Bytes) : Option Int :=
  if ds.isEmpty || !ds.all isDigit then none
  else
    let val : Nat := ds.foldl (fun acc d => acc * 10 + (d - 48)) 0
    if val ≤ 9223372036854775807 then some (val : Int) else none

/-- `parseInteger`: take the maximal leading digit run, convert it with
`Atoi`; `none` is the Go error return. -/
def parseInteger (input : Bytes) : Option (Bytes × Int) :=
  let digits := input.takeWhile isDigit
  match atoi digits with
  | none => none
  | some integer => some (input.drop digits.length, integer)

/-- `parseExp`: outer `none` models the panic of `input[0]` on empty input;
inner `none` is the returned error.  The Go local `expNeg` is inlined as
`s = 45` (the following byte is a minus sign). -/
def parseExp (input : Bytes) : Option (Option (Bytes × Int)) :=
  match input with
  | [] => none
  | c :: rest =>
    if c = 101 ∨ c = 69 then
      match rest with
      | [] => some none
      | s :: rest2 =>
        if s = 45 ∨ s = 43 then
          match parseInteger rest2 with
          | none => some none
          | some (input2, exp) =>
            some (some (input2, if s = 45 then -exp else exp))
        else
          match parseInteger rest with
          | none => some none
          | some (input2, exp) => some (some (input2, exp))
    else some none

/-- `parseFrac`: outer `none` models the panic of `input[0]` on empty input;
inner `none` is the returned error. -/
def parseFrac (input : Bytes) : Option (Option (Bytes × Int)) :=
  match input with
  | [] => none
  | c :: rest =>
    if c = 46 then
      match parseInteger rest with
      | none => some none
      | some (input2, decimal) => some (some (input2, decimal))
    else some none

/-- The body of `strtod` from the point where the optional leading `-` has
been stripped (`neg` records whether it was present, `input` is the text
after it).  Result `(ret, end, err)`: `none` models a panic; otherwise the
triple holds the value so far, the returned remainder string, and the error
flag (`true` when `err != nil`).  On every error return the Go code returns
`""` as the remainder.  The Go local `n` (re-assigned to `len(input)` right
after `parseInteger`) is `n2` here, and `frac` (built by the `frac *= 10`
loop, which runs once per fraction digit) is `10 ^ (n2 - 1 -
input3.length)`. -/
def strtod1 (neg : Bool) (input : Bytes) : Option (ℚ × Bytes × Bool) :=
  if input.length = 0 then some (0, [], true)
  else if input.getD 0 0 = 48 ∧ input.length = 1 then some (0, [], false)
  else if input.getD 0 0 = 48 ∧ 1 < input.length ∧
      ¬(input.getD 1 0 = 46 ∨ input.getD 1 0 = 101 ∨ input.getD 1 0 = 69) then
    some (0, [], true)
  else if ¬ isDigit (input.getD 0 0) then some (0, [], true)
  else
    match parseInteger input with
    | none => some (0, [], true)
    | some (input2, integer) =>
      let n2 := input2.length
      if n2 = 0 then
        some (if neg then -(integer : ℚ) else (integer : ℚ), [], false)
      else
        let ret : ℚ := (integer : ℚ)
        if input2.getD 0 0 = 46 then
          match parseFrac input2 with
          | none => none
          | some none => some (ret, [], true)
          | some (some (input3, decimal)) =>
            let frac : Int := 10 ^ (n2 - 1 - input3.length)
            let ret := ret + (decimal : ℚ) / (frac : ℚ)
            if input3.length = 0 then
              some (if neg then -ret else ret, [], false)
            else if ¬(input3.getD 0 0 = 101 ∨ input3.getD 0 0 = 69) then
              some (ret, [], true)
            else
              match parseExp input3 with
              | none => none
              | some none => some (ret, [], true)
              | some (some (input4, exp)) =>
                if input4.length ≠ 0 then some (ret, [], true)
                else
                  let ret := ret * (10 : ℚ) ^ exp
                  some (if neg then -ret else ret, [], false)
        else if input2.getD 0 0 = 101 ∨ input2.getD 0 0 = 69 then
          match parseExp input2 with
          | none => none
          | some none => some (ret, [], true)
          | some (some (input3, exp)) =>
            if input3.length ≠ 0 then some (ret, [], true)
            else
              let ret := ret * (10 : ℚ) ^ exp
              some (if neg then -ret else ret, [], false)
        else some (ret, [], true)

/-- `strtod`: read `first := input[0]` (a panic, hence `none`, on empty
input), strip a leading `-`, and continue with the body `strtod1`. -/
def strtod (input : Bytes) : Option (ℚ × Bytes × Bool) :=
  match input with
  | [] => none
  | first :: rest0 =>
    strtod1 (first = 45) (if first = 45 then rest0 else first :: rest0)

/-- `LeptParseNumber`: `v.n, end, err = strtod(c.json)` assigns `v.n` even on
error; the cursor only advances on success. -/
def LeptParseNumber (json : Bytes) (v : LeptValue) :
    Option (Nat × Bytes × LeptValue) :=
  match strtod json with
  | none => none
  | some (ret, e, err) =>
    if err then some (LeptParseInvalidValue, json, { v with n := ret })
    else some (LeptParseOK, e, { v with n := ret, typ := LeptType.LeptNUMBER })

/-- `LeptParseNull` -/
def LeptParseNull (json : Bytes) (v : LeptValue) :
    Option (Nat × Bytes × LeptValue) :=
  match expect json 110 with
  | none => none
  | some json1 =>
    if json1.length < 3 then some (LeptParseInvalidValue, json1, v)
    else if ¬(json1.getD 0 0 = 117) ∨ ¬(json1.getD 1 0 = 108) ∨
        ¬(json1.getD 2 0 = 108) then
      some (LeptParseInvalidValue, json1, v)
    else some (LeptParseOK, json1.drop 3, { v with typ := LeptType.LeptNULL })

/-- `LeptParseTrue` -/
def LeptParseTrue (json : Bytes) (v : LeptValue) :
    Option (Nat × Bytes × LeptValue) :=
  match expect json 116 with
  | none => none
  | some json1 =>
    if json1.length < 3 then some (LeptParseInvalidValue, json1, v)
    else if ¬(json1.getD 0 0 = 114) ∨ ¬(json1.getD 1 0 = 117) ∨
        ¬(json1.getD 2 0 = 101) then
      some (LeptParseInvalidValue, json1, v)
    else some (LeptParseOK, json1.drop 3, { v with typ := LeptType.LeptTRUE })

/-- `LeptParseFalse` -/
def LeptParseFalse (json : Bytes) (v : LeptValue) :
    Option (Nat × Bytes × LeptValue) :=
  match expect json 102 with
  | none => none
  | some json1 =>
    if json1.length < 4 then some (LeptParseInvalidValue, json1, v)
    else if ¬(json1.getD 0 0 = 97) ∨ ¬(json1.getD 1 0 = 108) ∨
        ¬(json1.getD 2 0 = 115) ∨ ¬(json1.getD 3 0 = 101) then
      some (LeptParseInvalidValue, json1, v)
    else some (LeptParseOK, json1.drop 4, { v with typ := LeptType.LeptFALSE })

/-- The escape switch inside `LeptParseString`: the byte written to the
buffer for `\e`, or `none` for the `default` branch
(`LeptParseInvalidStringEscape`).  The supported set is exactly
`" \ b f n r t /`; there is no `u` case. -/
def escapeByte (e : Nat) : Option Nat :=
  if e = 34 then some 34
  else if e = 92 then some 92
  else if e = 98 then some 8
  else if e = 102 then some 12
  else if e = 110 then some 10
  else if e = 114 then some 13
  else if e = 116 then some 9
  else if e = 47 then some 47
  else none

/-- Result of the scanning loop of `LeptParseString`. -/
inductive StrRes where
  | ok (payload rest : Bytes)
  | err (code : Nat)
deriving DecidableEq, Repr

/-- The `for i` loop of `LeptParseString`, carrying the output buffer
`stack`.  A closing quote returns the buffer and the input after the quote;
falling off the end returns `LeptParseMissQuotationMark`. -/
def LeptParseStringLoop (json : Bytes) (stack : Bytes) : StrRes :=
  match json with
  | [] => StrRes.err LeptParseMissQuotationMark
  | ch :: rest =>
    if ch = 34 then StrRes.ok stack rest
    else if ch = 92 then
      match rest with
      | [] => StrRes.err LeptParseInvalidStringEscape
      | e :: rest2 =>
        match escapeByte e with
        | none => StrRes.err LeptParseInvalidStringEscape
        | some b => LeptParseStringLoop rest2 (stack ++ [b])
    else if ch < 32 then StrRes.err LeptParseInvalidStringChar
    else LeptParseStringLoop rest (stack ++ [ch])

/-- `LeptParseString`: consume the opening quote, run the loop; on success
`LeptSetString` stores the payload and sets the tag; on error the cursor
stays right after the opening quote and `v` is untouched. -/
def LeptParseString (json : Bytes) (v : LeptValue) :
    Option (Nat × Bytes × LeptValue) :=
  match expect json 34 with
  | none => none
  | some json1 =>
    match LeptParseStringLoop json1 [] with
    | StrRes.ok payload rest =>
      some (LeptParseOK, rest, { v with s := payload, typ := LeptType.LeptSTRING })
    | StrRes.err code => some (code, json1, v)

/-- `LeptParseValue`: dispatch on the first byte; empty input is
`LeptParseExpectValue`; anything not starting `n`/`t`/`f`/`"` goes to the
number parser. -/
def LeptParseValue (json : Bytes) (v : LeptValue) :
    Option (Nat × Bytes × LeptValue) :=
  match json with
  | [] => some (LeptParseExpectValue, json, v)
  | c :: _ =>
    if c = 110 then LeptParseNull json v
    else if c = 116 then LeptParseTrue json v
    else if c = 102 then LeptParseFalse json v
    else if c = 34 then LeptParseString json v
    else LeptParseNumber json v

/-- `LeptParse`: set the tag to `LeptNULL`, skip whitespace, parse one value,
skip whitespace, and fail with `LeptParseRootNotSingular` when input
remains.  Returns the result code and the final output value. -/
def LeptParse (v : LeptValue) (json : Bytes) : Option (Nat × LeptValue) :=
  let v1 := { v with typ := LeptType.LeptNULL }
  let json1 := LeptParseWhitespace json
  match LeptParseValue json1 v1 with
  | none => none
  | some (ret, json2, v2) =>
    if ret ≠ LeptParseOK then some (ret, v2)
    else
      let json3 := LeptParseWhitespace json2
      if json3.length ≠ 0 then some (LeptParseRootNotSingular, v2)
      else some (LeptParseOK, v2)

/-! ## Helper lemmas -/

set_option maxHeartbeats 1600000 in
/-- Every success return inside the body of `strtod` hands back `""` (the
empty byte string) as the remainder. -/
theorem strtod1_success_rest_nil (neg : Bool) (input : Bytes) (r : ℚ) (e : Bytes)
    (h : strtod1 neg input = some (r, e, false)) : e = [] := by
  unfold strtod1 at h
  repeat'
    first
    | exact Option.noConfusion h
    | split at h
    | dsimp only [] at h
    | (simp only [Option.some.injEq, Prod.mk.injEq] at h
       exact h.2.1.symm)

/-- `strtod` never succeeds with a non-empty remainder. -/
theorem strtod_success_rest_nil (input : Bytes) (r : ℚ) (e : Bytes)
    (h : strtod input = some (r, e, false)) : e = [] := by
  cases input with
  | nil => exact Option.noConfusion h
  | cons first rest0 => exact strtod1_success_rest_nil _ _ r e h

/-- `LeptParseNull` returns the value argument unchanged on failure. -/
theorem LeptParseNull_fail (json : Bytes) (v : LeptValue) (r : Nat) (j : Bytes)
    (w : LeptValue) (h : LeptParseNull json v = some (r, j, w))
    (hr : r ≠ LeptParseOK) : w = v := by
  unfold LeptParseNull at h
  split at h
  · exact Option.noConfusion h
  · split at h
    · simp_all
    · split at h
      · simp_all
      · simp_all [LeptParseOK]

/-- `LeptParseTrue` returns the value argument unchanged on failure. -/
theorem LeptParseTrue_fail (json : Bytes) (v : LeptValue) (r : Nat) (j : Bytes)
    (w : LeptValue) (h : LeptParseTrue json v = some (r, j, w))
    (hr : r ≠ LeptParseOK) : w = v := by
  unfold LeptParseTrue at h
  split at h
  · exact Option.noConfusion h
  · split at h
    · simp_all
    · split at h
      · simp_all
      · simp_all [LeptParseOK]

/-- `LeptParseFalse` returns the value argument unchanged on failure. -/
theorem LeptParseFalse_fail (json : Bytes) (v : LeptValue) (r : Nat) (j : Bytes)
    (w : LeptValue) (h : LeptParseFalse json v = some (r, j, w))
    (hr : r ≠ LeptParseOK) : w = v := by
  unfold LeptParseFalse at h
  split at h
  · exact Option.noConfusion h
  · split at h
    · simp_all
    · split at h
      · simp_all
      · simp_all [LeptParseOK]

/-- The scanning loop of `LeptParseString` only reports the three string
error codes, never `LeptParseOK`. -/
theorem LeptParseStringLoop_err_code (json stack : Bytes) (code : Nat)
    (h : LeptParseStringLoop json stack = StrRes.err code) :
    code = LeptParseMissQuotationMark ∨ code = LeptParseInvalidStringEscape ∨
      code = LeptParseInvalidStringChar := by
  induction json, stack using LeptParseStringLoop.induct with
  | case1 stack =>
    unfold LeptParseStringLoop at h
    simp_all
  | case2 stack rest =>
    unfold LeptParseStringLoop at h
    simp_all
  | case3 stack h92 =>
    unfold LeptParseStringLoop at h
    simp_all
  | case4 stack s rest2 hesc h92 =>
    unfold LeptParseStringLoop at h
    simp_all
  | case5 stack s rest2 b hesc h92 ih =>
    unfold LeptParseStringLoop at h
    simp only [hesc] at h
    simp at h
    exact ih h
  | case6 stack first rest h34 h92 hlt =>
    unfold LeptParseStringLoop at h
    simp_all
  | case7 stack first rest h34 h92 hlt ih =>
    unfold LeptParseStringLoop at h
    simp only [if_neg h34, if_neg h92, if_neg hlt] at h
    exact ih h

/-- `LeptParseString` returns the value argument unchanged on failure. -/
theorem LeptParseString_fail (json : Bytes) (v : LeptValue) (r : Nat) (j : Bytes)
    (w : LeptValue) (h : LeptParseString json v = some (r, j, w))
    (hr : r ≠ LeptParseOK) : w = v := by
  unfold LeptParseString at h
  split at h
  · exact Option.noConfusion h
  · split at h
    · simp_all [LeptParseOK]
    · simp_all

/-- `LeptParseNumber` only updates the `n` payload on failure: the type tag
is the one passed in. -/
theorem LeptParseNumber_fail_typ (json : Bytes) (v : LeptValue) (r : Nat)
    (j : Bytes) (w : LeptValue) (h : LeptParseNumber json v = some (r, j, w))
    (hr : r ≠ LeptParseOK) : w.typ = v.typ := by
  unfold LeptParseNumber at h
  split at h
  · exact Option.noConfusion h
  · split at h
    · simp only [Option.some.injEq, Prod.mk.injEq] at h
      exact (congrArg LeptValue.typ h.2.2).symm
    · simp_all [LeptParseOK]

/-- Any non-`OK` outcome of the dispatcher leaves the type tag of the value
argument untouched. -/
theorem LeptParseValue_fail_typ (json : Bytes) (v : LeptValue) (r : Nat)
    (j : Bytes) (w : LeptValue) (h : LeptParseValue json v = some (r, j, w))
    (hr : r ≠ LeptParseOK) : w.typ = v.typ := by
  unfold LeptParseValue at h
  split at h
  · simp_all
  · split at h
    · exact congrArg LeptValue.typ (LeptParseNull_fail _ _ _ _ _ h hr)
    · split at h
      · exact congrArg LeptValue.typ (LeptParseTrue_fail _ _ _ _ _ h hr)
      · split at h
        · exact congrArg LeptValue.typ (LeptParseFalse_fail _ _ _ _ _ h hr)
        · split at h
          · exact congrArg LeptValue.typ (LeptParseString_fail _ _ _ _ _ h hr)
          · exact LeptParseNumber_fail_typ _ _ _ _ _ h hr

set_option maxHeartbeats 1600000 in
/-- `parseFrac` panics exactly on empty input. -/
theorem parseFrac_none_iff (input : Bytes) : parseFrac input = none ↔ input = [] := by
  constructor
  · intro h
    cases input with
    | nil => rfl
    | cons c rest =>
      unfold parseFrac at h
      repeat' split at h
      all_goals simp_all
  · intro h
    subst h
    rfl

set_option maxHeartbeats 1600000 in
/-- `parseExp` panics exactly on empty input. -/
theorem parseExp_none_iff (input : Bytes) : parseExp input = none ↔ input = [] := by
  constructor
  · intro h
    cases input with
    | nil => rfl
    | cons c rest =>
      unfold parseExp at h
      repeat' split at h
      all_goals simp_all
  · intro h
    subst h
    rfl

set_option maxHeartbeats 1600000 in
/-- The body of `strtod` never panics: its `parseFrac` and `parseExp` calls
are only reached with non-empty remaining input. -/
theorem strtod1_isSome (neg : Bool) (input : Bytes) :
    (strtod1 neg input).isSome := by
  unfold strtod1
  repeat'
    first
    | split
    | dsimp only []
  all_goals
    first
    | rfl
    | simp_all [parseFrac_none_iff, parseExp_none_iff]

/-- `strtod` never panics on non-empty input. -/
theorem strtod_cons_isSome (first : Nat) (rest : Bytes) :
    (strtod (first :: rest)).isSome := by
  unfold strtod
  exact strtod1_isSome _ _

/-- `expect` succeeds when the input starts with the expected byte. -/
theorem expect_cons_self (c : Nat) (rest : Bytes) :
    expect (c :: rest) c = some rest := by
  simp [expect]

/-- `LeptParseNull` never panics when the input starts with `n`. -/
theorem LeptParseNull_isSome (rest : Bytes) (v : LeptValue) :
    (LeptParseNull (110 :: rest) v).isSome := by
  unfold LeptParseNull
  rw [expect_cons_self]
  repeat'
    first
    | dsimp only []
    | split
  all_goals simp_all

/-- `LeptParseTrue` never panics when the input starts with `t`. -/
theorem LeptParseTrue_isSome (rest : Bytes) (v : LeptValue) :
    (LeptParseTrue (116 :: rest) v).isSome := by
  unfold LeptParseTrue
  rw [expect_cons_self]
  repeat'
    first
    | dsimp only []
    | split
  all_goals simp_all

/-- `LeptParseFalse` never panics when the input starts with `f`. -/
theorem LeptParseFalse_isSome (rest : Bytes) (v : LeptValue) :
    (LeptParseFalse (102 :: rest) v).isSome := by
  unfold LeptParseFalse
  rw [expect_cons_self]
  repeat'
    first
    | dsimp only []
    | split
  all_goals simp_all

/-- `LeptParseString` never panics when the input starts with a quote. -/
theorem LeptParseString_isSome (rest : Bytes) (v : LeptValue) :
    (LeptParseString (34 :: rest) v).isSome := by
  unfold LeptParseString
  rw [expect_cons_self]
  repeat'
    first
    | dsimp only []
    | split
  all_goals simp_all

/-- `LeptParseNumber` never panics on non-empty input. -/
theorem LeptParseNumber_isSome (c : Nat) (rest : Bytes) (v : LeptValue) :
    (LeptParseNumber (c :: rest) v).isSome := by
  unfold LeptParseNumber
  have hs := strtod_cons_isSome c rest
  rcases hopt : strtod (c :: rest) with _ | val
  · rw [hopt] at hs
    simp at hs
  · rcases val with ⟨r, e, err⟩
    dsimp only []
    split <;> rfl

/-- The dispatcher never panics: each branch is entered only when its
`expect` is guaranteed to succeed. -/
theorem LeptParseValue_isSome (json : Bytes) (v : LeptValue) :
    (LeptParseValue json v).isSome := by
  cases json with
  | nil => rfl
  | cons c rest =>
    unfold LeptParseValue
    dsimp only []
    by_cases h110 : c = 110
    · subst h110; simp only [if_pos rfl]; exact LeptParseNull_isSome rest v
    · rw [if_neg h110]
      by_cases h116 : c = 116
      · subst h116; simp only [if_pos rfl]; exact LeptParseTrue_isSome rest v
      · rw [if_neg h116]
        by_cases h102 : c = 102
        · subst h102; simp only [if_pos rfl]; exact LeptParseFalse_isSome rest v
        · rw [if_neg h102]
          by_cases h34 : c = 34
          · subst h34; simp only [if_pos rfl]; exact LeptParseString_isSome rest v
          · rw [if_neg h34]
            exact LeptParseNumber_isSome c rest v

/-- The entry parse never panics. -/
theorem LeptParse_isSome (v : LeptValue) (json : Bytes) :
    (LeptParse v json).isSome := by
  unfold LeptParse
  dsimp only []
  have hs := LeptParseValue_isSome (LeptParseWhitespace json)
    { v with typ := LeptType.LeptNULL }
  rcases hopt : LeptParseValue (LeptParseWhitespace json)
      { v with typ := LeptType.LeptNULL } with _ | res
  · rw [hopt] at hs
    simp at hs
  · rcases res with ⟨r, j2, w⟩
    dsimp only []
    split
    · rfl
    · split <;> rfl

/-- Parsing `null` followed by anything consumes exactly the 4 literal bytes
and sets the `LeptNULL` tag. -/
theorem LeptParseNull_literal (rest : Bytes) (v : LeptValue) :
    LeptParseNull (110 :: 117 :: 108 :: 108 :: rest) v =
      some (LeptParseOK, rest, { v with typ := LeptType.LeptNULL }) := by
  unfold LeptParseNull
  rw [expect_cons_self]
  dsimp only []
  rw [if_neg (by simp), if_neg (by simp [List.getD])]
  rfl

/-- Parsing `true` followed by anything consumes exactly the 4 literal bytes
and sets the `LeptTRUE` tag. -/
theorem LeptParseTrue_literal (rest : Bytes) (v : LeptValue) :
    LeptParseTrue (116 :: 114 :: 117 :: 101 :: rest) v =
      some (LeptParseOK, rest, { v with typ := LeptType.LeptTRUE }) := by
  unfold LeptParseTrue
  rw [expect_cons_self]
  dsimp only []
  rw [if_neg (by simp), if_neg (by simp [List.getD])]
  rfl

/-- Parsing `false` followed by anything consumes exactly the 5 literal
bytes and sets the `LeptFALSE` tag. -/
theorem LeptParseFalse_literal (rest : Bytes) (v : LeptValue) :
    LeptParseFalse (102 :: 97 :: 108 :: 115 :: 101 :: rest) v =
      some (LeptParseOK, rest, { v with typ := LeptType.LeptFALSE }) := by
  unfold LeptParseFalse
  rw [expect_cons_self]
  dsimp only []
  rw [if_neg (by simp), if_neg (by simp [List.getD])]
  rfl

/-- On whitespace-only input the entry parse reports `LeptParseExpectValue`
and the output is in the Null state. -/
theorem LeptParse_ws_only (v : LeptValue) (json : Bytes) (h : json.all isWs = true) :
    LeptParse v json =
      some (LeptParseExpectValue, { v with typ := LeptType.LeptNULL }) := by
  have hnil : LeptParseWhitespace json = [] := by
    unfold LeptParseWhitespace
    rw [List.dropWhile_eq_nil_iff]
    intro x hx
    exact List.all_eq_true.mp h x hx
  unfold LeptParse
  dsimp only []
  rw [hnil]
  simp [LeptParseValue, LeptParseExpectValue, LeptParseOK]

/-- A leading zero followed by any digit makes `strtod` fail. -/
theorem strtod_leading_zero (c : Nat) (rest : Bytes) (h : isDigit c = true) :
    strtod (48 :: c :: rest) = some (0, [], true) := by
  have hd : 48 ≤ c ∧ c ≤ 57 := by simpa [isDigit] using h
  unfold strtod
  dsimp only []
  rw [if_neg (by decide)]
  unfold strtod1
  rw [if_neg (by simp)]
  rw [if_neg (by simp)]
  rw [if_pos ?hc]
  case hc =>
    refine ⟨rfl, by simp, ?_⟩
    simp only [List.getD_cons_succ, List.getD_cons_zero]
    omega

/-- A leading zero followed by any digit (and arbitrary further input) makes
the entry parse fail with `LeptParseInvalidValue`, the output staying Null. -/
theorem LeptParse_leading_zero (c : Nat) (rest : Bytes) (h : isDigit c = true) :
    LeptParse NewLeptValue (48 :: c :: rest) =
      some (LeptParseInvalidValue, ⟨LeptType.LeptNULL, 0, []⟩) := by
  have hnum := strtod_leading_zero c rest h
  have h1 : LeptParseWhitespace (48 :: c :: rest) = 48 :: c :: rest := by
    simp [LeptParseWhitespace, List.dropWhile, isWs]
  have hval : LeptParseValue (48 :: c :: rest)
      { NewLeptValue with typ := LeptType.LeptNULL } =
      some (LeptParseInvalidValue, 48 :: c :: rest, ⟨LeptType.LeptNULL, 0, []⟩) := by
    unfold LeptParseValue
    dsimp only []
    rw [if_neg (by decide), if_neg (by decide), if_neg (by decide), if_neg (by decide)]
    unfold LeptParseNumber
    rw [hnum]
    dsimp only []
    rw [if_pos rfl]
    rfl
  unfold LeptParse
  dsimp only []
  rw [h1, hval]
  dsimp only []
  rw [if_pos (by decide)]

/-- Reaching the end of the string loop without a closing quote yields
`LeptParseMissQuotationMark`. -/
theorem LeptParseStringLoop_nil (stack : Bytes) :
    LeptParseStringLoop [] stack = StrRes.err LeptParseMissQuotationMark := rfl

/-- A backslash as the last input byte yields `LeptParseInvalidStringEscape`. -/
theorem LeptParseStringLoop_backslash_end (stack : Bytes) :
    LeptParseStringLoop [92] stack = StrRes.err LeptParseInvalidStringEscape := rfl

/-- A backslash followed by a byte outside the escape table yields
`LeptParseInvalidStringEscape`. -/
theorem LeptParseStringLoop_bad_escape (e : Nat) (rest stack : Bytes)
    (h : escapeByte e = none) :
    LeptParseStringLoop (92 :: e :: rest) stack =
      StrRes.err LeptParseInvalidStringEscape := by
  unfold LeptParseStringLoop
  rw [if_neg (by decide), if_pos rfl]
  dsimp only []
  rw [h]

/-- A raw byte below 0x20 yields `LeptParseInvalidStringChar`. -/
theorem LeptParseStringLoop_ctrl_char (ch : Nat) (rest stack : Bytes)
    (h : ch < 32) :
    LeptParseStringLoop (ch :: rest) stack =
      StrRes.err LeptParseInvalidStringChar := by
  have h34 : ¬(ch = 34) := by omega
  have h92 : ¬(ch = 92) := by omega
  unfold LeptParseStringLoop
  rw [if_neg h34, if_neg h92, if_pos h]

/-- Whenever the entry parse fails with a code other than
`LeptParseRootNotSingular`, the output value carries the `LeptNULL` tag. -/
theorem LeptParse_fail_null_typ (v : LeptValue) (json : Bytes) (r : Nat)
    (w : LeptValue) (h : LeptParse v json = some (r, w))
    (hr : r ≠ LeptParseOK) (hrns : r ≠ LeptParseRootNotSingular) :
    w.typ = LeptType.LeptNULL := by
  unfold LeptParse at h
  dsimp only [] at h
  rcases hv : LeptParseValue (LeptParseWhitespace json)
      { v with typ := LeptType.LeptNULL } with _ | res
  · rw [hv] at h
    exact Option.noConfusion h
  · rw [hv] at h
    rcases res with ⟨ret, j2, v2⟩
    dsimp only [] at h
    by_cases hret : ret = LeptParseOK
    · subst hret
      rw [if_neg (by simp)] at h
      split at h
      · simp only [Option.some.injEq, Prod.mk.injEq] at h
        exact absurd h.1.symm hrns
      · simp only [Option.some.injEq, Prod.mk.injEq] at h
        exact absurd h.1.symm hr
    · rw [if_pos hret] at h
      simp only [Option.some.injEq, Prod.mk.injEq] at h
      obtain ⟨h1, h2⟩ := h
      rw [← h2]
      exact LeptParseValue_fail_typ _ _ _ _ _ hv hret

/-- When the number parser reports `LeptParseOK` the new cursor is the empty
string: `strtod` only succeeds when the number spans the whole input. -/
theorem LeptParseNumber_success_rest_nil (json : Bytes) (v : LeptValue)
    (r : Nat) (rest : Bytes) (w : LeptValue)
    (h : LeptParseNumber json v = some (r, rest, w)) (hok : r = LeptParseOK) :
    rest = [] := by
  unfold LeptParseNumber at h
  rcases hopt : strtod json with _ | ⟨ret, e, err⟩
  · rw [hopt] at h
    exact Option.noConfusion h
  · rw [hopt] at h
    dsimp only [] at h
    cases err
    · rw [if_neg (by decide)] at h
      simp only [Option.some.injEq, Prod.mk.injEq] at h
      rw [← h.2.1]
      exact strtod_success_rest_nil json ret e hopt
    · rw [if_pos rfl] at h
      simp only [Option.some.injEq, Prod.mk.injEq] at h
      rw [hok] at h
      exact absurd h.1 (by decide)


/-- All-digit prefix followed by a digit-free tail: `takeWhile isDigit`
returns exactly the prefix. -/
theorem takeWhile_digits_append (ds X : Bytes) (hds : ds.all isDigit = true)
    (hX : X.takeWhile isDigit = []) :
    (ds ++ X).takeWhile isDigit = ds := by
  induction ds with
  | nil => simpa using hX
  | cons a as ih =>
    simp only [List.all_cons, Bool.and_eq_true] at hds
    simp [List.cons_append, List.takeWhile_cons, hds.1, ih hds.2]

/-- `parseInteger` fails on input with no leading digit: `Atoi` rejects the
empty slice. -/
theorem parseInteger_no_digits (T : Bytes) (hT : T.takeWhile isDigit = []) :
    parseInteger T = none := by
  unfold parseInteger
  dsimp only []
  rw [hT]
  rfl

/-- `parseInteger` on a non-empty digit run followed by a digit-free tail:
the digit run goes to `Atoi` and the tail is the remainder. -/
theorem parseInteger_digits_append (d : Nat) (ds X : Bytes) (hd : isDigit d = true)
    (hds : ds.all isDigit = true) (hX : X.takeWhile isDigit = []) :
    parseInteger ((d :: ds) ++ X) =
      match atoi (d :: ds) with
      | none => none
      | some integer => some (X, integer) := by
  have htw : ((d :: ds) ++ X).takeWhile isDigit = d :: ds := by
    apply takeWhile_digits_append (d :: ds) X _ hX
    simp [hd, hds]
  unfold parseInteger
  dsimp only []
  rw [htw, List.drop_left]

/-- `parseFrac` errors when no digit follows the dot. -/
theorem parseFrac_no_digits (T : Bytes) (hT : T.takeWhile isDigit = []) :
    parseFrac (46 :: T) = some none := by
  unfold parseFrac
  dsimp only []
  rw [if_pos rfl, parseInteger_no_digits T hT]

/-- `parseExp` errors on every malformed exponent: a bare `e`/`E` at end of
input, a sign with no following digit, or any non-sign non-digit byte after
the `e`/`E`. -/
theorem parseExp_malformed (E : Nat) (X : Bytes) (hE : E = 101 ∨ E = 69)
    (hX : X = [] ∨ ∃ s X2, X = s :: X2 ∧
      ((s = 45 ∨ s = 43) ∧ X2.takeWhile isDigit = [] ∨
        isDigit s = false ∧ ¬(s = 45) ∧ ¬(s = 43))) :
    parseExp (E :: X) = some none := by
  unfold parseExp
  dsimp only []
  rw [if_pos hE]
  rcases hX with rfl | ⟨s, X2, rfl, hcase⟩
  · rfl
  · dsimp only []
    rcases hcase with ⟨hs, hX2⟩ | ⟨hnd, h45, h43⟩
    · rw [if_pos hs, parseInteger_no_digits X2 hX2]
    · rw [if_neg (by tauto)]
      rw [parseInteger_no_digits (s :: X2) (by simp [List.takeWhile_cons, hnd])]

/-- Any number literal whose integer part is a digit run and whose fraction
has no digits makes `strtod` fail, whatever the mantissa. -/
theorem strtod_frac_no_digits (d : Nat) (ds T : Bytes) (hd : isDigit d = true)
    (hds : ds.all isDigit = true) (hT : T.takeWhile isDigit = []) :
    ∃ q : ℚ, strtod ((d :: ds) ++ 46 :: T) = some (q, [], true) := by
  have hdig : 48 ≤ d ∧ d ≤ 57 := by simpa [isDigit] using hd
  by_cases hzero : d = 48 ∧ ds ≠ []
  · obtain ⟨h48, hne⟩ := hzero
    cases ds with
    | nil => exact absurd rfl hne
    | cons e es =>
      have he : isDigit e = true := by
        simp only [List.all_cons, Bool.and_eq_true] at hds
        exact hds.1
      subst h48
      exact ⟨0, strtod_leading_zero e (es ++ 46 :: T) he⟩
  · unfold strtod
    rw [List.cons_append]
    dsimp only []
    rw [decide_eq_false (by omega), if_neg (by omega)]
    unfold strtod1
    rw [if_neg (by simp)]
    rw [if_neg ?h2]
    case h2 =>
      rintro ⟨-, hlen⟩
      simp [List.length_append] at hlen
    rw [if_neg ?h3]
    case h3 =>
      rintro ⟨h48, -, hnot⟩
      have hds_nil : ds = [] := by
        by_contra hne
        exact hzero ⟨h48, hne⟩
      subst hds_nil
      exact hnot (Or.inl rfl)
    rw [if_neg (fun hnd => hnd hd)]
    rw [← List.cons_append, parseInteger_digits_append d ds (46 :: T) hd hds rfl]
    cases hatoi : atoi (d :: ds) with
    | none => exact ⟨0, rfl⟩
    | some intg =>
      dsimp only []
      rw [if_neg (by simp)]
      rw [if_pos (show (46 :: T).getD 0 0 = 46 from rfl)]
      rw [parseFrac_no_digits T hT]
      exact ⟨_, rfl⟩

/-- Any number literal that is a digit run followed by a malformed exponent
(bare `e`/`E`, or `e`/`E` then a sign with no digits, or `e`/`E` then a
non-sign non-digit) makes `strtod` fail, whatever the mantissa. -/
theorem strtod_bad_exp (d : Nat) (ds : Bytes) (E : Nat) (X : Bytes)
    (hd : isDigit d = true) (hds : ds.all isDigit = true)
    (hE : E = 101 ∨ E = 69)
    (hX : X = [] ∨ ∃ s X2, X = s :: X2 ∧
      ((s = 45 ∨ s = 43) ∧ X2.takeWhile isDigit = [] ∨
        isDigit s = false ∧ ¬(s = 45) ∧ ¬(s = 43))) :
    ∃ q : ℚ, strtod ((d :: ds) ++ E :: X) = some (q, [], true) := by
  have hdig : 48 ≤ d ∧ d ≤ 57 := by simpa [isDigit] using hd
  have htwE : (E :: X).takeWhile isDigit = [] := by
    rcases hE with rfl | rfl <;> rfl
  have hpe := parseExp_malformed E X hE hX
  by_cases hzero : d = 48 ∧ ds ≠ []
  · obtain ⟨h48, hne⟩ := hzero
    cases ds with
    | nil => exact absurd rfl hne
    | cons e es =>
      have he : isDigit e = true := by
        simp only [List.all_cons, Bool.and_eq_true] at hds
        exact hds.1
      subst h48
      exact ⟨0, strtod_leading_zero e (es ++ E :: X) he⟩
  · unfold strtod
    rw [List.cons_append]
    dsimp only []
    rw [decide_eq_false (by omega), if_neg (by omega)]
    unfold strtod1
    rw [if_neg (by simp)]
    rw [if_neg ?h2]
    case h2 =>
      rintro ⟨-, hlen⟩
      simp [List.length_append] at hlen
    rw [if_neg ?h3]
    case h3 =>
      rintro ⟨h48, -, hnot⟩
      have hds_nil : ds = [] := by
        by_contra hne
        exact hzero ⟨h48, hne⟩
      subst hds_nil
      apply hnot
      rcases hE with rfl | rfl
      · exact Or.inr (Or.inl rfl)
      · exact Or.inr (Or.inr rfl)
    rw [if_neg (fun hnd => hnd hd)]
    rw [← List.cons_append, parseInteger_digits_append d ds (E :: X) hd hds htwE]
    cases hatoi : atoi (d :: ds) with
    | none => exact ⟨0, rfl⟩
    | some intg =>
      dsimp only []
      rw [if_neg (by simp)]
      rw [if_neg (show ¬((E :: X).getD 0 0 = 46) by
        rcases hE with rfl | rfl <;> simp [List.getD_cons_zero])]
      rw [if_pos (show (E :: X).getD 0 0 = 101 ∨ (E :: X).getD 0 0 = 69 by
        rcases hE with rfl | rfl
        · exact Or.inl rfl
        · exact Or.inr rfl)]
      rw [hpe]
      exact ⟨_, rfl⟩

/-- A digit run, a fraction with at least one digit, and then a malformed
exponent also make `strtod` fail, whatever the mantissa and fraction. -/
theorem strtod_frac_bad_exp (d : Nat) (ds : Bytes) (f : Nat) (fs : Bytes)
    (E : Nat) (X : Bytes)
    (hd : isDigit d = true) (hds : ds.all isDigit = true)
    (hf : isDigit f = true) (hfs : fs.all isDigit = true)
    (hE : E = 101 ∨ E = 69)
    (hX : X = [] ∨ ∃ s X2, X = s :: X2 ∧
      ((s = 45 ∨ s = 43) ∧ X2.takeWhile isDigit = [] ∨
        isDigit s = false ∧ ¬(s = 45) ∧ ¬(s = 43))) :
    ∃ q : ℚ, strtod ((d :: ds) ++ 46 :: ((f :: fs) ++ E :: X)) =
      some (q, [], true) := by
  have hdig : 48 ≤ d ∧ d ≤ 57 := by simpa [isDigit] using hd
  have htwE : (E :: X).takeWhile isDigit = [] := by
    rcases hE with rfl | rfl <;> rfl
  have hpe := parseExp_malformed E X hE hX
  by_cases hzero : d = 48 ∧ ds ≠ []
  · obtain ⟨h48, hne⟩ := hzero
    cases ds with
    | nil => exact absurd rfl hne
    | cons e es =>
      have he : isDigit e = true := by
        simp only [List.all_cons, Bool.and_eq_true] at hds
        exact hds.1
      subst h48
      exact ⟨0, strtod_leading_zero e (es ++ 46 :: ((f :: fs) ++ E :: X)) he⟩
  · unfold strtod
    rw [List.cons_append]
    dsimp only []
    rw [decide_eq_false (by omega), if_neg (by omega)]
    unfold strtod1
    rw [if_neg (by simp)]
    rw [if_neg ?h2]
    case h2 =>
      rintro ⟨-, hlen⟩
      simp [List.length_append] at hlen
    rw [if_neg ?h3]
    case h3 =>
      rintro ⟨h48, -, hnot⟩
      have hds_nil : ds = [] := by
        by_contra hne
        exact hzero ⟨h48, hne⟩
      subst hds_nil
      exact hnot (Or.inl rfl)
    rw [if_neg (fun hnd => hnd hd)]
    rw [← List.cons_append,
      parseInteger_digits_append d ds (46 :: ((f :: fs) ++ E :: X)) hd hds rfl]
    cases hatoi : atoi (d :: ds) with
    | none => exact ⟨0, rfl⟩
    | some intg =>
      dsimp only []
      rw [if_neg (by simp)]
      rw [if_pos (show (46 :: ((f :: fs) ++ E :: X)).getD 0 0 = 46 from rfl)]
      cases hatoi2 : atoi (f :: fs) with
      | none =>
        have hpf : parseFrac (46 :: ((f :: fs) ++ E :: X)) = some none := by
          unfold parseFrac
          dsimp only []
          rw [if_pos rfl,
            parseInteger_digits_append f fs (E :: X) hf hfs htwE, hatoi2]
        rw [hpf]
        exact ⟨_, rfl⟩
      | some dec =>
        have hpf : parseFrac (46 :: ((f :: fs) ++ E :: X)) =
            some (some (E :: X, dec)) := by
          unfold parseFrac
          dsimp only []
          rw [if_pos rfl,
            parseInteger_digits_append f fs (E :: X) hf hfs htwE, hatoi2]
        rw [hpf]
        dsimp only []
        rw [if_neg (by simp)]
        rw [if_neg (show ¬¬((E :: X).getD 0 0 = 101 ∨ (E :: X).getD 0 0 = 69) by
          intro hn
          apply hn
          rcases hE with rfl | rfl
          · exact Or.inl rfl
          · exact Or.inr rfl)]
        rw [hpe]
        exact ⟨_, rfl⟩

/-- Lift a `strtod` error on digit-led input to the entry parse: the
dispatcher routes it to the number parser, which reports
`LeptParseInvalidValue` with a Null-tagged output. -/
theorem LeptParse_digit_strtod_err (d : Nat) (rest : Bytes) (hd : isDigit d = true)
    (q : ℚ) (hs : strtod (d :: rest) = some (q, [], true)) :
    LeptParse NewLeptValue (d :: rest) =
      some (LeptParseInvalidValue, ⟨LeptType.LeptNULL, q, []⟩) := by
  have hdig : 48 ≤ d ∧ d ≤ 57 := by simpa [isDigit] using hd
  have hws : isWs d = false := by
    simp only [isWs]
    simp only [Bool.or_eq_false_iff, decide_eq_false_iff_not]
    omega
  have h1 : LeptParseWhitespace (d :: rest) = d :: rest := by
    unfold LeptParseWhitespace
    rw [List.dropWhile_cons, hws]
    simp
  have hval : LeptParseValue (d :: rest)
      { NewLeptValue with typ := LeptType.LeptNULL } =
      some (LeptParseInvalidValue, d :: rest, ⟨LeptType.LeptNULL, q, []⟩) := by
    unfold LeptParseValue
    dsimp only []
    rw [if_neg (by omega), if_neg (by omega), if_neg (by omega), if_neg (by omega)]
    unfold LeptParseNumber
    rw [hs]
    dsimp only []
    rw [if_pos rfl]
    rfl
  unfold LeptParse
  dsimp only []
  rw [h1, hval]
  dsimp only []
  rw [if_pos (by decide)]

/-- `LeptParseNull` with fewer than 3 bytes after the `n` reports
`LeptParseInvalidValue` and returns the value argument unchanged. -/
theorem LeptParseNull_short (rest : Bytes) (v : LeptValue) (h : rest.length < 3) :
    LeptParseNull (110 :: rest) v = some (LeptParseInvalidValue, rest, v) := by
  unfold LeptParseNull
  rw [expect_cons_self]
  dsimp only []
  rw [if_pos h]

/-- `LeptParseNull` with any byte mismatch against `ull` (at any of the
three positions) reports `LeptParseInvalidValue`, value unchanged. -/
theorem LeptParseNull_mismatch (rest : Bytes) (v : LeptValue)
    (hlen : 3 ≤ rest.length)
    (h : ¬(rest.getD 0 0 = 117) ∨ ¬(rest.getD 1 0 = 108) ∨ ¬(rest.getD 2 0 = 108)) :
    LeptParseNull (110 :: rest) v = some (LeptParseInvalidValue, rest, v) := by
  unfold LeptParseNull
  rw [expect_cons_self]
  dsimp only []
  rw [if_neg (by omega), if_pos h]

/-- `LeptParseTrue` with fewer than 3 bytes after the `t` reports
`LeptParseInvalidValue`, value unchanged. -/
theorem LeptParseTrue_short (rest : Bytes) (v : LeptValue) (h : rest.length < 3) :
    LeptParseTrue (116 :: rest) v = some (LeptParseInvalidValue, rest, v) := by
  unfold LeptParseTrue
  rw [expect_cons_self]
  dsimp only []
  rw [if_pos h]

/-- `LeptParseTrue` with any byte mismatch against `rue` reports
`LeptParseInvalidValue`, value unchanged. -/
theorem LeptParseTrue_mismatch (rest : Bytes) (v : LeptValue)
    (hlen : 3 ≤ rest.length)
    (h : ¬(rest.getD 0 0 = 114) ∨ ¬(rest.getD 1 0 = 117) ∨ ¬(rest.getD 2 0 = 101)) :
    LeptParseTrue (116 :: rest) v = some (LeptParseInvalidValue, rest, v) := by
  unfold LeptParseTrue
  rw [expect_cons_self]
  dsimp only []
  rw [if_neg (by omega), if_pos h]

/-- `LeptParseFalse` with fewer than 4 bytes after the `f` reports
`LeptParseInvalidValue`, value unchanged. -/
theorem LeptParseFalse_short (rest : Bytes) (v : LeptValue) (h : rest.length < 4) :
    LeptParseFalse (102 :: rest) v = some (LeptParseInvalidValue, rest, v) := by
  unfold LeptParseFalse
  rw [expect_cons_self]
  dsimp only []
  rw [if_pos h]

/-- `LeptParseFalse` with any byte mismatch against `alse` reports
`LeptParseInvalidValue`, value unchanged. -/
theorem LeptParseFalse_mismatch (rest : Bytes) (v : LeptValue)
    (hlen : 4 ≤ rest.length)
    (h : ¬(rest.getD 0 0 = 97) ∨ ¬(rest.getD 1 0 = 108) ∨
      ¬(rest.getD 2 0 = 115) ∨ ¬(rest.getD 3 0 = 101)) :
    LeptParseFalse (102 :: rest) v = some (LeptParseInvalidValue, rest, v) := by
  unfold LeptParseFalse
  rw [expect_cons_self]
  dsimp only []
  rw [if_neg (by omega), if_pos h]

/-! ## Claim theorems -/

/-- Claim C1: the spec says `\uXXXX` escapes (including surrogate pairs) are
decoded and re-encoded as UTF-8, with `parse("\"\u20AC\"")` succeeding.  The
code's escape switch has no `u` case (`escapeByte 117 = none`), so both
`"\u20AC"` and the surrogate pair `"\uD83D\uDE00"` are rejected with
`LeptParseInvalidStringEscape` instead of parsing successfully. -/
theorem C1_unicode_escape_rejected :
    LeptParse NewLeptValue (bytes ("\"\\u20AC\"")) =
      some (LeptParseInvalidStringEscape, ⟨LeptType.LeptNULL, 0, []⟩) ∧
    LeptParse NewLeptValue (bytes ("\"\\uD83D\\uDE00\"")) =
      some (LeptParseInvalidStringEscape, ⟨LeptType.LeptNULL, 0, []⟩) ∧
    escapeByte 117 = none ∧
    LeptParseInvalidStringEscape ≠ LeptParseOK := by
  refine ⟨by decide, by decide, rfl, by decide⟩

/-- Claim C2: the spec requires round-tripping every double whose decimal
text has at most 17 significant digits.  The code converts digit runs with
`strconv.Atoi` (64-bit), so the decimal text `10000000000000000000` of the
double 1e19 (one significant digit) overflows `Atoi` and the whole parse
returns `LeptParseInvalidValue` instead of `LeptParseOK`. -/
theorem C2_seventeen_digit_roundtrip_fails :
    atoi (bytes ("10000000000000000000")) = none ∧
    parseInteger (bytes ("10000000000000000000")) = none ∧
    strtod (bytes ("10000000000000000000")) = some (0, [], true) ∧
    LeptParse NewLeptValue (bytes ("10000000000000000000")) =
      some (LeptParseInvalidValue, ⟨LeptType.LeptNULL, 0, []⟩) ∧
    LeptParseInvalidValue ≠ LeptParseOK := by
  refine ⟨by decide, by decide, by decide, by decide, by decide⟩

/-- Claim C3: the spec says `parse("[]")` yields an empty array.  The
dispatcher has no `[` case: `[` falls through to the number parser, and
`parse("[]")` returns `LeptParseInvalidValue` with a Null output, not an
array value. -/
theorem C3_empty_array_rejected :
    LeptParse NewLeptValue (bytes ("[]")) =
      some (LeptParseInvalidValue, ⟨LeptType.LeptNULL, 0, []⟩) ∧
    (∀ v : LeptValue,
      LeptParseValue (bytes ("[]")) v = LeptParseNumber (bytes ("[]")) v) ∧
    LeptParseInvalidValue ≠ LeptParseOK := by
  refine ⟨by decide, fun v => rfl, by decide⟩

/-- Claim C4 counterexample: the number parser itself rules on trailing
characters.  On `"1 "` `strtod` returns an error because of the trailing
space, `LeptParseNumber` reports `LeptParseInvalidValue` with the cursor
unmoved, and the whole parse fails — the trailing space is never left to
the caller. -/
theorem C4_counterexample :
    strtod (bytes ("1 ")) = some (1, [], true) ∧
    LeptParseNumber (bytes ("1 ")) NewLeptValue =
      some (LeptParseInvalidValue, bytes ("1 "), ⟨LeptType.LeptFALSE, 1, []⟩) ∧
    LeptParse NewLeptValue (bytes ("1 ")) =
      some (LeptParseInvalidValue, ⟨LeptType.LeptNULL, 1, []⟩) := by
  refine ⟨by decide, by decide, by decide⟩

/-- Claim C4 (amended): when the number parser succeeds, the new cursor is
always the empty remainder — `strtod` only succeeds when the number token
spans the entire remaining input, and any trailing character (even
whitespace) makes the number parser itself return `LeptParseInvalidValue`. -/
theorem C4_number_success_consumes_all (json : Bytes) (v : LeptValue)
    (r : Nat) (rest : Bytes) (w : LeptValue)
    (h : LeptParseNumber json v = some (r, rest, w)) (hok : r = LeptParseOK) :
    rest = [] :=
  LeptParseNumber_success_rest_nil json v r rest w h hok

/-- Claim C4 witness: the amended theorem applied to the input `"1"`. -/
theorem C4_witness : ([] : Bytes) = [] :=
  C4_number_success_consumes_all (bytes ("1")) NewLeptValue LeptParseOK []
    ⟨LeptType.LeptNUMBER, 1, []⟩ (by decide) rfl

/-- Claim C5 counterexample: `parse("true false")` fails with
`LeptParseRootNotSingular` but the output keeps the `LeptTRUE` tag of the
already-parsed value — it is not in the Null state. -/
theorem C5_counterexample :
    LeptParse NewLeptValue (bytes ("true false")) =
      some (LeptParseRootNotSingular, ⟨LeptType.LeptTRUE, 0, []⟩) ∧
    LeptType.LeptTRUE ≠ LeptType.LeptNULL := by
  refine ⟨by decide, by decide⟩

/-- Claim C5 (amended): every failing parse other than
`LeptParseRootNotSingular` leaves the output in the Null state; a
`LeptParseRootNotSingular` failure happens after a successful value and
keeps that value's type tag. -/
theorem C5_fail_output_null (v : LeptValue) (json : Bytes) (r : Nat)
    (w : LeptValue) (h : LeptParse v json = some (r, w))
    (hr : r ≠ LeptParseOK) (hrns : r ≠ LeptParseRootNotSingular) :
    w.typ = LeptType.LeptNULL :=
  LeptParse_fail_null_typ v json r w h hr hrns

/-- Claim C5 witness: the amended theorem applied to the invalid input
`"x"`. -/
theorem C5_witness : (⟨LeptType.LeptNULL, 0, []⟩ : LeptValue).typ = LeptType.LeptNULL :=
  C5_fail_output_null NewLeptValue (bytes ("x")) LeptParseInvalidValue
    ⟨LeptType.LeptNULL, 0, []⟩ (by decide) (by decide) (by decide)

/-- Claim C6: the entry parse skips leading whitespace, parses one value,
skips trailing whitespace; empty or whitespace-only input gives
`LeptParseExpectValue`, a leftover non-whitespace suffix gives
`LeptParseRootNotSingular`, and otherwise it returns `LeptParseOK`; in
particular `parse("  true  ")` succeeds with `LeptTRUE` and
`parse("true false")` is `LeptParseRootNotSingular`. -/
theorem C6_entry_sequencing :
    (∀ (v : LeptValue) (json : Bytes), json.all isWs = true →
      LeptParse v json =
        some (LeptParseExpectValue, { v with typ := LeptType.LeptNULL })) ∧
    LeptParse NewLeptValue (bytes ("  true  ")) =
      some (LeptParseOK, ⟨LeptType.LeptTRUE, 0, []⟩) ∧
    LeptParse NewLeptValue (bytes ("true false")) =
      some (LeptParseRootNotSingular, ⟨LeptType.LeptTRUE, 0, []⟩) ∧
    (∀ (v : LeptValue) (json : Bytes) (ret : Nat) (rest : Bytes) (w : LeptValue),
      LeptParseValue (LeptParseWhitespace json) { v with typ := LeptType.LeptNULL } =
          some (ret, rest, w) →
      ret = LeptParseOK →
      LeptParse v json =
        some (if (LeptParseWhitespace rest).length ≠ 0 then
          LeptParseRootNotSingular else LeptParseOK, w)) := by
  refine ⟨fun v json h => LeptParse_ws_only v json h, by decide, by decide, ?_⟩
  intro v json ret rest w hval hok
  subst hok
  unfold LeptParse
  dsimp only []
  rw [hval]
  dsimp only []
  rw [if_neg (by simp)]
  split <;> rfl

/-- Claim C6 witness: the sequencing theorem applied to `""` (whitespace
branch) and to `"true"` (successful-value branch). -/
theorem C6_witness :
    LeptParse NewLeptValue ([] : Bytes) =
      some (LeptParseExpectValue, { NewLeptValue with typ := LeptType.LeptNULL }) ∧
    LeptParse NewLeptValue (bytes ("true")) =
      some (if (LeptParseWhitespace ([] : Bytes)).length ≠ 0 then
        LeptParseRootNotSingular else LeptParseOK, ⟨LeptType.LeptTRUE, 0, []⟩) :=
  ⟨C6_entry_sequencing.1 NewLeptValue [] (by decide),
   C6_entry_sequencing.2.2.2 NewLeptValue (bytes ("true")) LeptParseOK []
     ⟨LeptType.LeptTRUE, 0, []⟩ (by decide) rfl⟩

/-- Claim C7: malformed number literals are rejected with
`LeptParseInvalidValue`: the named inputs `"0123"`, `"-"`, `"1."`, `"1e"`,
`"1e+"`, `"1e-"`, and in general (for every digit-run mantissa) a leading
zero followed by any digit, a fraction with no digits, a malformed exponent
(bare `e`/`E` at end of input, or `e`/`E` followed by a sign with no digits
or by any non-digit), and a malformed exponent after a fraction. -/
theorem C7_malformed_numbers_invalid :
    LeptParse NewLeptValue (bytes ("0123")) =
      some (LeptParseInvalidValue, ⟨LeptType.LeptNULL, 0, []⟩) ∧
    LeptParse NewLeptValue (bytes ("-")) =
      some (LeptParseInvalidValue, ⟨LeptType.LeptNULL, 0, []⟩) ∧
    LeptParse NewLeptValue (bytes ("1.")) =
      some (LeptParseInvalidValue, ⟨LeptType.LeptNULL, 1, []⟩) ∧
    LeptParse NewLeptValue (bytes ("1e")) =
      some (LeptParseInvalidValue, ⟨LeptType.LeptNULL, 1, []⟩) ∧
    LeptParse NewLeptValue (bytes ("1e+")) =
      some (LeptParseInvalidValue, ⟨LeptType.LeptNULL, 1, []⟩) ∧
    LeptParse NewLeptValue (bytes ("1e-")) =
      some (LeptParseInvalidValue, ⟨LeptType.LeptNULL, 1, []⟩) ∧
    (∀ (c : Nat) (rest : Bytes), isDigit c = true →
      LeptParse NewLeptValue (48 :: c :: rest) =
        some (LeptParseInvalidValue, ⟨LeptType.LeptNULL, 0, []⟩)) ∧
    (∀ (d : Nat) (ds T : Bytes), isDigit d = true → ds.all isDigit = true →
      T.takeWhile isDigit = [] →
      ∃ q : ℚ, LeptParse NewLeptValue ((d :: ds) ++ 46 :: T) =
        some (LeptParseInvalidValue, ⟨LeptType.LeptNULL, q, []⟩)) ∧
    (∀ (d : Nat) (ds : Bytes) (E : Nat) (X : Bytes), isDigit d = true →
      ds.all isDigit = true → (E = 101 ∨ E = 69) →
      (X = [] ∨ ∃ s X2, X = s :: X2 ∧
        ((s = 45 ∨ s = 43) ∧ X2.takeWhile isDigit = [] ∨
          isDigit s = false ∧ ¬(s = 45) ∧ ¬(s = 43))) →
      ∃ q : ℚ, LeptParse NewLeptValue ((d :: ds) ++ E :: X) =
        some (LeptParseInvalidValue, ⟨LeptType.LeptNULL, q, []⟩)) ∧
    (∀ (d : Nat) (ds : Bytes) (f : Nat) (fs : Bytes) (E : Nat) (X : Bytes),
      isDigit d = true → ds.all isDigit = true → isDigit f = true →
      fs.all isDigit = true → (E = 101 ∨ E = 69) →
      (X = [] ∨ ∃ s X2, X = s :: X2 ∧
        ((s = 45 ∨ s = 43) ∧ X2.takeWhile isDigit = [] ∨
          isDigit s = false ∧ ¬(s = 45) ∧ ¬(s = 43))) →
      ∃ q : ℚ, LeptParse NewLeptValue ((d :: ds) ++ 46 :: ((f :: fs) ++ E :: X)) =
        some (LeptParseInvalidValue, ⟨LeptType.LeptNULL, q, []⟩)) := by
  refine ⟨by decide, by decide, by decide, by decide, by decide, by decide,
    fun c rest h => LeptParse_leading_zero c rest h, ?_, ?_, ?_⟩
  · intro d ds T hd hds hT
    obtain ⟨q, hq⟩ := strtod_frac_no_digits d ds T hd hds hT
    exact ⟨q, LeptParse_digit_strtod_err d (ds ++ 46 :: T) hd q hq⟩
  · intro d ds E X hd hds hE hX
    obtain ⟨q, hq⟩ := strtod_bad_exp d ds E X hd hds hE hX
    exact ⟨q, LeptParse_digit_strtod_err d (ds ++ E :: X) hd q hq⟩
  · intro d ds f fs E X hd hds hf hfs hE hX
    obtain ⟨q, hq⟩ := strtod_frac_bad_exp d ds f fs E X hd hds hf hfs hE hX
    exact ⟨q, LeptParse_digit_strtod_err d (ds ++ 46 :: ((f :: fs) ++ E :: X)) hd q hq⟩

/-- Claim C7 witness: the universal clauses applied to `"01"` (leading
zero), `"12."` (fraction with no digits, two-digit mantissa), `"2e"` and
`"1E"` (bare exponents, either case), and `"0.5e+"` (sign with no digits
after a fraction). -/
theorem C7_witness :
    LeptParse NewLeptValue [48, 49] =
      some (LeptParseInvalidValue, ⟨LeptType.LeptNULL, 0, []⟩) ∧
    (∃ q : ℚ, LeptParse NewLeptValue [49, 50, 46] =
      some (LeptParseInvalidValue, ⟨LeptType.LeptNULL, q, []⟩)) ∧
    (∃ q : ℚ, LeptParse NewLeptValue [50, 101] =
      some (LeptParseInvalidValue, ⟨LeptType.LeptNULL, q, []⟩)) ∧
    (∃ q : ℚ, LeptParse NewLeptValue [49, 69] =
      some (LeptParseInvalidValue, ⟨LeptType.LeptNULL, q, []⟩)) ∧
    (∃ q : ℚ, LeptParse NewLeptValue [48, 46, 53, 101, 43] =
      some (LeptParseInvalidValue, ⟨LeptType.LeptNULL, q, []⟩)) :=
  ⟨C7_malformed_numbers_invalid.2.2.2.2.2.2.1 49 [] (by decide),
   C7_malformed_numbers_invalid.2.2.2.2.2.2.2.1 49 [50] [] (by decide)
     (by decide) rfl,
   C7_malformed_numbers_invalid.2.2.2.2.2.2.2.2.1 50 [] 101 [] (by decide)
     (by decide) (Or.inl rfl) (Or.inl rfl),
   C7_malformed_numbers_invalid.2.2.2.2.2.2.2.2.1 49 [] 69 [] (by decide)
     (by decide) (Or.inr rfl) (Or.inl rfl),
   C7_malformed_numbers_invalid.2.2.2.2.2.2.2.2.2 48 [] 53 [] 101 [43]
     (by decide) (by decide) (by decide) (by decide) (Or.inl rfl)
     (Or.inr ⟨43, [], rfl, Or.inl ⟨Or.inr rfl, rfl⟩⟩)⟩

/-- Claim C8: string parse failures are classified into exactly three
mutually distinct codes: end of input without a closing quote is
`LeptParseMissQuotationMark`, a backslash followed by a byte outside the
escape table (or by end of input) is `LeptParseInvalidStringEscape`, and a
raw byte below 0x20 (such as a tab) is `LeptParseInvalidStringChar`. -/
theorem C8_string_error_classification :
    LeptParse NewLeptValue (bytes ("\"abc")) =
      some (LeptParseMissQuotationMark, ⟨LeptType.LeptNULL, 0, []⟩) ∧
    LeptParse NewLeptValue (bytes ("\"\\x\"")) =
      some (LeptParseInvalidStringEscape, ⟨LeptType.LeptNULL, 0, []⟩) ∧
    LeptParse NewLeptValue [34, 9, 34] =
      some (LeptParseInvalidStringChar, ⟨LeptType.LeptNULL, 0, []⟩) ∧
    (∀ stack : Bytes,
      LeptParseStringLoop [] stack = StrRes.err LeptParseMissQuotationMark) ∧
    (∀ stack : Bytes,
      LeptParseStringLoop [92] stack = StrRes.err LeptParseInvalidStringEscape) ∧
    (∀ (e : Nat) (rest stack : Bytes), escapeByte e = none →
      LeptParseStringLoop (92 :: e :: rest) stack =
        StrRes.err LeptParseInvalidStringEscape) ∧
    (∀ (ch : Nat) (rest stack : Bytes), ch < 32 →
      LeptParseStringLoop (ch :: rest) stack =
        StrRes.err LeptParseInvalidStringChar) ∧
    (∀ (json stack : Bytes) (code : Nat),
      LeptParseStringLoop json stack = StrRes.err code →
      code = LeptParseMissQuotationMark ∨ code = LeptParseInvalidStringEscape ∨
        code = LeptParseInvalidStringChar) ∧
    (LeptParseMissQuotationMark ≠ LeptParseInvalidStringEscape ∧
      LeptParseMissQuotationMark ≠ LeptParseInvalidStringChar ∧
      LeptParseInvalidStringEscape ≠ LeptParseInvalidStringChar) := by
  refine ⟨by decide, by decide, by decide,
    fun stack => LeptParseStringLoop_nil stack,
    fun stack => LeptParseStringLoop_backslash_end stack,
    fun e rest stack h => LeptParseStringLoop_bad_escape e rest stack h,
    fun ch rest stack h => LeptParseStringLoop_ctrl_char ch rest stack h,
    fun json stack code h => LeptParseStringLoop_err_code json stack code h,
    by decide, by decide, by decide⟩

/-- Claim C8 witness: the escape clause at byte `x` (0x78) and the
control-character clause at the tab byte. -/
theorem C8_witness :
    LeptParseStringLoop [92, 120] [] = StrRes.err LeptParseInvalidStringEscape ∧
    LeptParseStringLoop [9] [] = StrRes.err LeptParseInvalidStringChar :=
  ⟨C8_string_error_classification.2.2.2.2.2.1 120 [] [] (by decide),
   C8_string_error_classification.2.2.2.2.2.2.1 9 [] [] (by decide)⟩

/-- Claim C9: each literal parser consumes exactly its literal (4 bytes for
`null`/`true`, 5 for `false`) and sets the corresponding tag; any byte
mismatch against the remaining spelling (`ull`, `rue`, `alse`, at any
position) and any insufficient remaining input return
`LeptParseInvalidValue` with the value record (hence the tag) unchanged. -/
theorem C9_literal_parsing :
    (∀ (rest : Bytes) (v : LeptValue),
      LeptParseNull (110 :: 117 :: 108 :: 108 :: rest) v =
        some (LeptParseOK, rest, { v with typ := LeptType.LeptNULL })) ∧
    (∀ (rest : Bytes) (v : LeptValue),
      LeptParseTrue (116 :: 114 :: 117 :: 101 :: rest) v =
        some (LeptParseOK, rest, { v with typ := LeptType.LeptTRUE })) ∧
    (∀ (rest : Bytes) (v : LeptValue),
      LeptParseFalse (102 :: 97 :: 108 :: 115 :: 101 :: rest) v =
        some (LeptParseOK, rest, { v with typ := LeptType.LeptFALSE })) ∧
    (∀ (json : Bytes) (v : LeptValue) (r : Nat) (j : Bytes) (w : LeptValue),
      LeptParseNull json v = some (r, j, w) → r ≠ LeptParseOK → w = v) ∧
    (∀ (json : Bytes) (v : LeptValue) (r : Nat) (j : Bytes) (w : LeptValue),
      LeptParseTrue json v = some (r, j, w) → r ≠ LeptParseOK → w = v) ∧
    (∀ (json : Bytes) (v : LeptValue) (r : Nat) (j : Bytes) (w : LeptValue),
      LeptParseFalse json v = some (r, j, w) → r ≠ LeptParseOK → w = v) ∧
    LeptParseNull (bytes ("nulx")) NewLeptValue =
      some (LeptParseInvalidValue, bytes ("ulx"), NewLeptValue) ∧
    LeptParseNull (bytes ("nul")) NewLeptValue =
      some (LeptParseInvalidValue, bytes ("ul"), NewLeptValue) ∧
    LeptParseTrue (bytes ("trux")) NewLeptValue =
      some (LeptParseInvalidValue, bytes ("rux"), NewLeptValue) ∧
    LeptParseFalse (bytes ("falsx")) NewLeptValue =
      some (LeptParseInvalidValue, bytes ("alsx"), NewLeptValue) ∧
    (∀ (rest : Bytes) (v : LeptValue), rest.length < 3 →
      LeptParseNull (110 :: rest) v = some (LeptParseInvalidValue, rest, v)) ∧
    (∀ (rest : Bytes) (v : LeptValue), 3 ≤ rest.length →
      ¬(rest.getD 0 0 = 117) ∨ ¬(rest.getD 1 0 = 108) ∨ ¬(rest.getD 2 0 = 108) →
      LeptParseNull (110 :: rest) v = some (LeptParseInvalidValue, rest, v)) ∧
    (∀ (rest : Bytes) (v : LeptValue), rest.length < 3 →
      LeptParseTrue (116 :: rest) v = some (LeptParseInvalidValue, rest, v)) ∧
    (∀ (rest : Bytes) (v : LeptValue), 3 ≤ rest.length →
      ¬(rest.getD 0 0 = 114) ∨ ¬(rest.getD 1 0 = 117) ∨ ¬(rest.getD 2 0 = 101) →
      LeptParseTrue (116 :: rest) v = some (LeptParseInvalidValue, rest, v)) ∧
    (∀ (rest : Bytes) (v : LeptValue), rest.length < 4 →
      LeptParseFalse (102 :: rest) v = some (LeptParseInvalidValue, rest, v)) ∧
    (∀ (rest : Bytes) (v : LeptValue), 4 ≤ rest.length →
      ¬(rest.getD 0 0 = 97) ∨ ¬(rest.getD 1 0 = 108) ∨
        ¬(rest.getD 2 0 = 115) ∨ ¬(rest.getD 3 0 = 101) →
      LeptParseFalse (102 :: rest) v = some (LeptParseInvalidValue, rest, v)) := by
  refine ⟨fun rest v => LeptParseNull_literal rest v,
    fun rest v => LeptParseTrue_literal rest v,
    fun rest v => LeptParseFalse_literal rest v,
    fun json v r j w h hr => LeptParseNull_fail json v r j w h hr,
    fun json v r j w h hr => LeptParseTrue_fail json v r j w h hr,
    fun json v r j w h hr => LeptParseFalse_fail json v r j w h hr,
    by decide, by decide, by decide, by decide,
    fun rest v h => LeptParseNull_short rest v h,
    fun rest v hlen h => LeptParseNull_mismatch rest v hlen h,
    fun rest v h => LeptParseTrue_short rest v h,
    fun rest v hlen h => LeptParseTrue_mismatch rest v hlen h,
    fun rest v h => LeptParseFalse_short rest v h,
    fun rest v hlen h => LeptParseFalse_mismatch rest v hlen h⟩

/-- Claim C9 witness: the failure-preservation clause at `"nul"`, the
mismatch clauses at a first-position mismatch (`n` then `xll`) and a
last-position mismatch (`f` then `alsx`), and the short-input clause for
`true` at `t` then `r`. -/
theorem C9_witness :
    NewLeptValue = NewLeptValue ∧
    LeptParseNull (110 :: [120, 108, 108]) NewLeptValue =
      some (LeptParseInvalidValue, [120, 108, 108], NewLeptValue) ∧
    LeptParseTrue (116 :: [114]) NewLeptValue =
      some (LeptParseInvalidValue, [114], NewLeptValue) ∧
    LeptParseFalse (102 :: [97, 108, 115, 120]) NewLeptValue =
      some (LeptParseInvalidValue, [97, 108, 115, 120], NewLeptValue) :=
  ⟨C9_literal_parsing.2.2.2.1 (bytes ("nul")) NewLeptValue LeptParseInvalidValue
     (bytes ("ul")) NewLeptValue (by decide) (by decide),
   C9_literal_parsing.2.2.2.2.2.2.2.2.2.2.2.1 [120, 108, 108] NewLeptValue
     (by decide) (by decide),
   C9_literal_parsing.2.2.2.2.2.2.2.2.2.2.2.2.1 [114] NewLeptValue (by decide),
   C9_literal_parsing.2.2.2.2.2.2.2.2.2.2.2.2.2.2.2 [97, 108, 115, 120]
     NewLeptValue (by decide) (by decide)⟩

/-- Claim C10: for every input and output value the entry parse terminates
with a result and never panics: every `expect` call and unguarded index
access is reached only with the guaranteed byte present (panic is modelled
as `none`, and the result is never `none`). -/
theorem C10_no_panic (v : LeptValue) (json : Bytes) :
    (LeptParse v json).isSome = true :=
  LeptParse_isSome v json
